import Mathlib

/-!
Verification of the Epidemiology-Models repository

Shallow embedding of the discrete-time, barrier-synchronized compartment
simulations (SIR, SQEIR, zombie SIInZD variants) and proofs about them.

Conventions of the embedding:
* C `long` values are modelled as `ℤ` (signed overflow is undefined behaviour
  in C, so the defined executions are exactly the unbounded-integer ones).
* C `double` rate parameters hold exact decimal constants (`0.4`, `0.04`, ...);
  they are modelled as exact fractions `Rate` with an integer numerator and a
  natural denominator, so that every arithmetic step is exact and executable.
* The C expression `round(rate * x)` (C99 `round`: round half away from zero)
  is modelled by `rateRound`, built on `croundFrac n d` = round half away from
  zero of the fraction `n / d`.
* C integer division of `long`s truncates toward zero; it is modelled by
  `Int.tdiv`.
-/

set_option autoImplicit false

namespace Epidemiology

/-- Round half away from zero of the fraction `n / d` (for `0 < d`), the
behaviour of C99 `round` on the exact rational value `n / d`.
For `0 ≤ n` this is `⌊n/d + 1/2⌋ = (2*n + d) / (2*d)` (floor division), and
for `n < 0` it is the mirror image `-⌊(-n)/d + 1/2⌋ = ⌈n/d - 1/2⌉`. -/
def croundFrac (n : ℤ) (d : ℕ) : ℤ :=
  if 0 ≤ n then Int.ediv (2 * n + d) (2 * d) else -Int.ediv (2 * (-n) + d) (2 * d)

/-- An exact rational rate constant `num / den`, the model of the C `double`
rate parameters (`InfectionRate = 0.4` is `⟨4, 10⟩`, and so on). -/
structure Rate where
  num : ℤ
  den : ℕ
deriving Repr, DecidableEq

/-- The C expression `round(rate * x)`: round half away from zero of the exact
product `rate * x`. -/
def rateRound (r : Rate) (x : ℤ) : ℤ := croundFrac (r.num * x) r.den

/-- The clamp used by the compartment workers: `if (next < 0) next = 0;`. -/
def clampNonneg (x : ℤ) : ℤ := if x < 0 then 0 else x

/-- Rates and fixed total population of the 3-compartment SIR model
(`SIR Model/SIR_C/SIR.c` globals `InfectionRate`, `RecoveryRate`,
`TotalPopulation`). -/
structure SIRParams where
  infectionRate : Rate
  recoveryRate : Rate
  totalPopulation : ℤ
deriving Repr, DecidableEq

/-- Default parameter values from `SIR.c`: `InfectionRate = 0.4`,
`RecoveryRate = 0.04`, `TotalPopulation = 175000`. -/
def sirDefaults : SIRParams := ⟨⟨4, 10⟩, ⟨4, 100⟩, 175000⟩

/-- The shared compartment state of the 3-compartment SIR model
(`CurrentSusceptible`, `CurrentInfected`, `CurrentRecovered`). -/
structure SIRState where
  susceptible : ℤ
  infected : ℤ
  recovered : ℤ
deriving Repr, DecidableEq

/-- Initial compartment values from `SIR.c`: 175000 susceptible,
10 infected, 0 recovered. -/
def sirInit : SIRState := ⟨175000, 10, 0⟩

/-- The raw next value computed by `Susceptible()` in `SIR.c` before the clamp:
`nextSusceptible = CurrentSusceptible
  - round(InfectionRate * ((CurrentSusceptible * CurrentInfected)/TotalPopulation))`.
The inner division is C `long` division (truncation toward zero). -/
def sirRawSusceptible (p : SIRParams) (s : SIRState) : ℤ :=
  s.susceptible -
    rateRound p.infectionRate (Int.tdiv (s.susceptible * s.infected) p.totalPopulation)

/-- The value committed by `Susceptible()` in `SIR.c` (raw value clamped at 0). -/
def sirNextSusceptible (p : SIRParams) (s : SIRState) : ℤ :=
  clampNonneg (sirRawSusceptible p s)

/-- The raw next value computed by `Infected()` in `SIR.c` before the clamp:
`nextInfected = CurrentInfected
  + round(InfectionRate * ((CurrentSusceptible * CurrentInfected)/TotalPopulation))
  - round(CurrentInfected * RecoveryRate)`. -/
def sirRawInfected (p : SIRParams) (s : SIRState) : ℤ :=
  s.infected +
    rateRound p.infectionRate (Int.tdiv (s.susceptible * s.infected) p.totalPopulation) -
    rateRound p.recoveryRate s.infected

/-- The value committed by `Infected()` in `SIR.c` (raw value clamped at 0). -/
def sirNextInfected (p : SIRParams) (s : SIRState) : ℤ :=
  clampNonneg (sirRawInfected p s)

/-- The raw next value computed by `Recovered()` in `SIR.c`:
`nextRecovered += round(CurrentInfected * RecoveryRate)`.
`Recovered()` has no clamp branch, so this is also the committed value. -/
def sirRawRecovered (p : SIRParams) (s : SIRState) : ℤ :=
  s.recovered + rateRound p.recoveryRate s.infected

/-- The value committed by `Recovered()` in `SIR.c`: identical to the raw
value, since `Recovered()` commits without a clamp branch. -/
def sirNextRecovered (p : SIRParams) (s : SIRState) : ℤ :=
  sirRawRecovered p s

/-- One lockstep round of the 3-compartment SIR engine: all three workers
compute from the same snapshot `s` and commit after the `DoneComputing`
barrier. -/
def sirStep (p : SIRParams) (s : SIRState) : SIRState :=
  ⟨sirNextSusceptible p s, sirNextInfected p s, sirNextRecovered p s⟩

/-- The committed state after `n` lockstep rounds. -/
def sirIter (p : SIRParams) : ℕ → SIRState → SIRState
  | 0, s => s
  | n + 1, s => sirStep p (sirIter p n s)

/-! ## The simulation clock

Every variant's `Watcher()` advances the clock the same way per round:
`tempMonth = NowMonth + 1; if (tempMonth > 11) { tempMonth = 0; tempYear++; }`.
A clock value is a pair `(NowYear, NowMonth)`. -/

/-- One clock advance by the `Watcher()` task (identical in `SIR.c`,
`SQEIR.c`, `SIInZD.c`). -/
def tick (c : ℕ × ℕ) : ℕ × ℕ :=
  if c.2 + 1 > 11 then (c.1 + 1, 0) else (c.1, c.2 + 1)

/-! ## Barrier-synchronized round protocol

Each round, every compartment worker computes its next value from the shared
state (compute phase), all tasks meet at the `DoneComputing` barrier, each
worker commits its value to its own shared variable (commit phase), all tasks
meet at the `DoneAssigning` barrier, and the `Watcher` reports and advances
the clock, after which all tasks meet at the `DonePrinting` barrier.

We model a round as an arbitrary interleaving (a list) of per-task events;
the barriers are captured by the hypothesis that in the list every compute
event precedes every commit event, which precede the report event. -/

/-- A per-task action inside one round: worker `w` computing its next value
into its private `next...` variable, worker `w` committing that value to its
shared `Current...` variable, or the `Watcher` reporting and advancing the
clock. -/
inductive Ev (n : ℕ) where
  | compute (w : Fin n)
  | commit (w : Fin n)
  | report
deriving DecidableEq, Repr

/-- Whether an event is a compute-phase event. -/
def Ev.isCompute {n : ℕ} : Ev n → Bool
  | .compute _ => true
  | _ => false

/-- Whether an event is a commit-phase event. -/
def Ev.isCommit {n : ℕ} : Ev n → Bool
  | .commit _ => true
  | _ => false

/-- The shared simulation state seen by the concurrent tasks: the shared
compartment variables (`Current...`), each worker's private computed value
(`next...`), and the shared clock (`NowYear`, `NowMonth`). -/
structure Conc (n : ℕ) where
  shared : Fin n → ℤ
  buf : Fin n → ℤ
  clock : ℕ × ℕ

/-- Execute one event. A compute event makes worker `w` read the shared
compartments and store its update rule's result privately; a commit event
writes worker `w`'s private value to its own shared variable (and nothing
else); the report event advances the clock (and writes nothing else). -/
def evStep {n : ℕ} (rule : Fin n → (Fin n → ℤ) → ℤ) (c : Conc n) : Ev n → Conc n
  | .compute w => { c with buf := Function.update c.buf w (rule w c.shared) }
  | .commit w => { c with shared := Function.update c.shared w (c.buf w) }
  | .report => { c with clock := tick c.clock }

/-- Execute a schedule (an interleaving of the tasks' events) sequentially. -/
def runEvents {n : ℕ} (rule : Fin n → (Fin n → ℤ) → ℤ) (c : Conc n)
    (evs : List (Ev n)) : Conc n :=
  evs.foldl (evStep rule) c

/-- The SIR shared compartment vector in declared order:
index 0 `CurrentSusceptible`, 1 `CurrentInfected`, 2 `CurrentRecovered`. -/
def sirVec (s : SIRState) : Fin 3 → ℤ := fun w =>
  match w with
  | 0 => s.susceptible
  | 1 => s.infected
  | 2 => s.recovered

/-- The three SIR workers' update rules (`Susceptible()`, `Infected()`,
`Recovered()` in `SIR.c`) as rules over the shared compartment vector. -/
def sirRule (p : SIRParams) : Fin 3 → (Fin 3 → ℤ) → ℤ := fun w v =>
  match w with
  | 0 => sirNextSusceptible p ⟨v 0, v 1, v 2⟩
  | 1 => sirNextInfected p ⟨v 0, v 1, v 2⟩
  | 2 => sirNextRecovered p ⟨v 0, v 1, v 2⟩

/-- Non-negative rate parameters (the command-line layer rejects negative
rates, so every run has these). -/
def SIRParams.Nonneg (p : SIRParams) : Prop :=
  0 ≤ p.infectionRate.num ∧ 0 ≤ p.recoveryRate.num

/-- All three compartments non-negative. -/
def SIRState.Nonneg (s : SIRState) : Prop :=
  0 ≤ s.susceptible ∧ 0 ≤ s.infected ∧ 0 ≤ s.recovered

/-- The number of report lines printed by `Watcher()`'s
`while (NowYear < H)` loop from clock state `c`, with enough `fuel`: one
line per iteration, clock advanced by `tick` after each. -/
def loopReports (H : ℕ) : ℕ → ℕ × ℕ → ℕ
  | 0, _ => 0
  | fuel + 1, c => if c.1 < H then 1 + loopReports H fuel (tick c) else 0

/-- One guarded iteration of the round loop as a clock transformer: advance
the clock if the year is still below the horizon, else stay (the loop has
exited). -/
def loopTick (H : ℕ) (c : ℕ × ℕ) : ℕ × ℕ := if c.1 < H then tick c else c

/-- Total number of report lines printed by the SQEIR variant
(`SQEIR.cpp` main plus `SQEIR.c` `Watcher()`) with horizon `NumYears = H`:
one initial-state report from `main`, then the loop from clock `(0, 1)`. -/
def sqeirReportTotal (H : ℕ) : ℕ := 1 + loopReports H (12 * H) (0, 1)

/-- Total number of report lines printed by the zombie variant
(`zombieSIInZD.cpp` main plus `SIInZD.c` `Watcher()`) with
`END_YEAR = H`: no initial report, loop from clock `(START_YEAR, 0)` with
`START_YEAR = 2023`. -/
def zombieReportTotal (H : ℕ) : ℕ := loopReports H (12 * H) (2023, 0)

/-! ## The SQEIR variant (`SQEIR Model/SQEIR.c`, `SQEIR.cpp`)

`SQEIR.c` references a shared variable `CurrentQuarantined` that is declared
`extern` in `SQEIR.h` but defined nowhere in the repository's sources (the
file instead defines `CurrentSusceptibleQuarantined = 0` and
`CurrentExposedQuarantined = 0`); we model the quarantined compartment with
initial value 0, matching those initializers. -/

/-- The SQEIR rates (`InfectionRate`, `RecoveryRate` in `SQEIR.c`). -/
structure SQEIRParams where
  infectionRate : Rate
  recoveryRate : Rate
deriving Repr, DecidableEq

/-- Defaults from `SQEIR.c`: `InfectionRate = 0.4`, `RecoveryRate = 0.04`. -/
def sqeirDefaults : SQEIRParams := ⟨⟨4, 10⟩, ⟨4, 100⟩⟩

/-- The SQEIR shared compartments in declared order: `CurrentSusceptible`,
`CurrentQuarantined`, `CurrentExposed`, `CurrentInfected`,
`CurrentRecovered`. -/
structure SQEIRState where
  susceptible : ℤ
  quarantined : ℤ
  exposed : ℤ
  infected : ℤ
  recovered : ℤ
deriving Repr, DecidableEq

/-- Initial values from `SQEIR.c`: 175000 susceptible, 0 quarantined (see
the section comment), 100 exposed, 10 infected, 0 recovered. -/
def sqeirInit : SQEIRState := ⟨175000, 0, 100, 10, 0⟩

/-- The raw next value of `Susceptible()` in `SQEIR.c` before the clamp:
`nextSusceptible -= round(CurrentSusceptible * InfectionRate)`. -/
def sqeirRawSusceptible (p : SQEIRParams) (s : SQEIRState) : ℤ :=
  s.susceptible - rateRound p.infectionRate s.susceptible

/-- The value committed by `Susceptible()` in `SQEIR.c` (clamped). -/
def sqeirNextSusceptible (p : SQEIRParams) (s : SQEIRState) : ℤ :=
  clampNonneg (sqeirRawSusceptible p s)

/-- The raw next value of `Quarantined()` in `SQEIR.c` before the clamp:
`nextQuarantined -= round(CurrentQuarantined * InfectionRate)`. -/
def sqeirRawQuarantined (p : SQEIRParams) (s : SQEIRState) : ℤ :=
  s.quarantined - rateRound p.infectionRate s.quarantined

/-- The value committed by `Quarantined()` in `SQEIR.c` (clamped). -/
def sqeirNextQuarantined (p : SQEIRParams) (s : SQEIRState) : ℤ :=
  clampNonneg (sqeirRawQuarantined p s)

/-- The raw next value of `Exposed()` in `SQEIR.c` before the clamp:
`nextExposed -= round(CurrentExposed * InfectionRate)`. -/
def sqeirRawExposed (p : SQEIRParams) (s : SQEIRState) : ℤ :=
  s.exposed - rateRound p.infectionRate s.exposed

/-- The value committed by `Exposed()` in `SQEIR.c` (clamped). -/
def sqeirNextExposed (p : SQEIRParams) (s : SQEIRState) : ℤ :=
  clampNonneg (sqeirRawExposed p s)

/-- The raw next value of `Infected()` in `SQEIR.c` before the clamp:
`nextInfected += round(CurrentSusceptible * InfectionRate);
 nextInfected -= round(CurrentInfected * RecoveryRate)`. -/
def sqeirRawInfected (p : SQEIRParams) (s : SQEIRState) : ℤ :=
  s.infected + rateRound p.infectionRate s.susceptible -
    rateRound p.recoveryRate s.infected

/-- The value committed by `Infected()` in `SQEIR.c` (clamped). -/
def sqeirNextInfected (p : SQEIRParams) (s : SQEIRState) : ℤ :=
  clampNonneg (sqeirRawInfected p s)

/-- The raw next value of `Recovered()` in `SQEIR.c`:
`nextRecovered += round(CurrentInfected * RecoveryRate)`; there is no clamp
branch, so this is also the committed value. -/
def sqeirRawRecovered (p : SQEIRParams) (s : SQEIRState) : ℤ :=
  s.recovered + rateRound p.recoveryRate s.infected

/-- The value committed by `Recovered()` in `SQEIR.c` (no clamp branch). -/
def sqeirNextRecovered (p : SQEIRParams) (s : SQEIRState) : ℤ :=
  sqeirRawRecovered p s

/-- One lockstep round of the SQEIR engine. -/
def sqeirStep (p : SQEIRParams) (s : SQEIRState) : SQEIRState :=
  ⟨sqeirNextSusceptible p s, sqeirNextQuarantined p s, sqeirNextExposed p s,
    sqeirNextInfected p s, sqeirNextRecovered p s⟩

/-- The committed SQEIR state after `n` lockstep rounds. -/
def sqeirIter (p : SQEIRParams) : ℕ → SQEIRState → SQEIRState
  | 0, s => s
  | n + 1, s => sqeirStep p (sqeirIter p n s)

/-- Non-negative SQEIR rates. -/
def SQEIRParams.Nonneg (p : SQEIRParams) : Prop :=
  0 ≤ p.infectionRate.num ∧ 0 ≤ p.recoveryRate.num

/-- All five SQEIR compartments non-negative. -/
def SQEIRState.Nonneg (s : SQEIRState) : Prop :=
  0 ≤ s.susceptible ∧ 0 ≤ s.quarantined ∧ 0 ≤ s.exposed ∧
    0 ≤ s.infected ∧ 0 ≤ s.recovered

/-! ## The zombie variant (`Zombie Apocalypse/SIInZD.c`) -/

/-- `START_YEAR` from `SIInZD.h`. -/
def START_YEAR : ℕ := 2023

/-- The zombie variant's shared compartments in declared order:
`CurrentSusceptible`, `CurrentImmune`, `CurrentInfected`, `CurrentZombies`,
`CurrentDead`. -/
structure ZombieState where
  susceptible : ℤ
  immune : ℤ
  infected : ℤ
  zombies : ℤ
  dead : ℤ
deriving Repr, DecidableEq

/-- Initial values from `SIInZD.c`: 175000 susceptible, 100 immune,
10 infected, 10 zombies, 0 dead. -/
def zombieInit : ZombieState := ⟨175000, 100, 10, 10, 0⟩

/-- The zombie variant's rates (`InfectionRate`, `ZombieRate`, `DeathRate`,
`ZombieDeathRate` in `SIInZD.c`). -/
structure ZombieParams where
  infectionRate : Rate
  zombieRate : Rate
  deathRate : Rate
  zombieDeathRate : Rate
deriving Repr, DecidableEq

/-- Defaults from `SIInZD.c`: 0.4, 0.04, 0.25, 0.5. -/
def zombieDefaults : ZombieParams := ⟨⟨4, 10⟩, ⟨4, 100⟩, ⟨25, 100⟩, ⟨5, 10⟩⟩

/-- Exact sum of two rates, for C expressions like
`(InfectionRate + DeathRate)`. -/
def rateAdd (a b : Rate) : Rate := ⟨a.num * b.den + b.num * a.den, a.den * b.den⟩

/-- The raw next value of `Susceptible()` in `SIInZD.c` before the clamp:
`nextSusceptible -= round(CurrentSusceptible * (InfectionRate + DeathRate))`. -/
def zombieRawSusceptible (p : ZombieParams) (s : ZombieState) : ℤ :=
  s.susceptible - rateRound (rateAdd p.infectionRate p.deathRate) s.susceptible

/-- The value committed by `Susceptible()` in `SIInZD.c` (clamped). -/
def zombieNextSusceptible (p : ZombieParams) (s : ZombieState) : ℤ :=
  clampNonneg (zombieRawSusceptible p s)

/-- The raw next value of `Infected()` in `SIInZD.c` before the clamp:
`nextInfected += round(CurrentSusceptible * InfectionRate);
 nextInfected -= round(CurrentInfected * (ZombieRate + DeathRate))`. -/
def zombieRawInfected (p : ZombieParams) (s : ZombieState) : ℤ :=
  s.infected + rateRound p.infectionRate s.susceptible -
    rateRound (rateAdd p.zombieRate p.deathRate) s.infected

/-- The value committed by `Infected()` in `SIInZD.c` (clamped). -/
def zombieNextInfected (p : ZombieParams) (s : ZombieState) : ℤ :=
  clampNonneg (zombieRawInfected p s)

/-- The raw next value of `Immune()` in `SIInZD.c` before the clamp:
`nextImmune -= round(CurrentImmune * DeathRate)`. -/
def zombieRawImmune (p : ZombieParams) (s : ZombieState) : ℤ :=
  s.immune - rateRound p.deathRate s.immune

/-- The value committed by `Immune()` in `SIInZD.c` (clamped). -/
def zombieNextImmune (p : ZombieParams) (s : ZombieState) : ℤ :=
  clampNonneg (zombieRawImmune p s)

/-- The raw next value of `Zombies()` in `SIInZD.c` before the clamp:
`nextZombies += round(CurrentInfected * ZombieRate);
 nextZombies -= round(CurrentZombies * ZombieDeathRate)`. -/
def zombieRawZombies (p : ZombieParams) (s : ZombieState) : ℤ :=
  s.zombies + rateRound p.zombieRate s.infected -
    rateRound p.zombieDeathRate s.zombies

/-- The value committed by `Zombies()` in `SIInZD.c` (clamped). -/
def zombieNextZombies (p : ZombieParams) (s : ZombieState) : ℤ :=
  clampNonneg (zombieRawZombies p s)

/-- The raw next value of `Dead()` in `SIInZD.c` before the clamp:
`nextDead += round(CurrentSusceptible * DeathRate) +
 round(CurrentInfected * DeathRate) + round(CurrentImmune * DeathRate) +
 round(CurrentZombies * ZombieDeathRate)`. -/
def zombieRawDead (p : ZombieParams) (s : ZombieState) : ℤ :=
  s.dead + rateRound p.deathRate s.susceptible +
    rateRound p.deathRate s.infected + rateRound p.deathRate s.immune +
    rateRound p.zombieDeathRate s.zombies

/-- The value committed by `Dead()` in `SIInZD.c` (clamped — `Dead()` also
has the `if (nextDead < 0) nextDead = 0;` branch). -/
def zombieNextDead (p : ZombieParams) (s : ZombieState) : ℤ :=
  clampNonneg (zombieRawDead p s)

/-- One lockstep round of the zombie engine. -/
def zombieStep (p : ZombieParams) (s : ZombieState) : ZombieState :=
  ⟨zombieNextSusceptible p s, zombieNextImmune p s, zombieNextInfected p s,
    zombieNextZombies p s, zombieNextDead p s⟩

/-- The committed zombie state after `n` lockstep rounds. -/
def zombieIter (p : ZombieParams) : ℕ → ZombieState → ZombieState
  | 0, s => s
  | n + 1, s => zombieStep p (zombieIter p n s)

/-- All five zombie compartments non-negative. -/
def ZombieState.Nonneg (s : ZombieState) : Prop :=
  0 ≤ s.susceptible ∧ 0 ≤ s.immune ∧ 0 ≤ s.infected ∧ 0 ≤ s.zombies ∧
    0 ≤ s.dead

/-! ## CSV round reports (claim C8) -/

/-- The spec's CSV leading field: `linearMonthIndex = 12*currentYear +
currentMonth` (modelled from the spec's words, for comparison with the code's
report lines). -/
def specLinearIndex (c : ℕ × ℕ) : ℤ := 12 * (c.1 : ℤ) + (c.2 : ℤ)

/-- The CSV line printed by `Watcher()` in `SQEIR.c`:
`printMonth = NowMonth + 12*NowYear` followed by
S, Q, E, I, R in declared order. -/
def sqeirCsvLine (c : ℕ × ℕ) (s : SQEIRState) : List ℤ :=
  [(c.2 : ℤ) + 12 * (c.1 : ℤ), s.susceptible, s.quarantined, s.exposed,
    s.infected, s.recovered]

/-- The CSV line printed by `Watcher()` in `SIInZD.c`:
`yearDiff = NowYear - START_YEAR; printMonth = NowMonth + 12*yearDiff`
followed by S, Immune, I, Z, D in declared order. -/
def zombieCsvLine (c : ℕ × ℕ) (z : ZombieState) : List ℤ :=
  [(c.2 : ℤ) + 12 * ((c.1 : ℤ) - (START_YEAR : ℤ)), z.susceptible, z.immune,
    z.infected, z.zombies, z.dead]

/-! ## Numeric argument parsing (`SIR Model/SIR_OpenCL/inputParsing.c`)

`parseLong` wraps `strtol(str, &endptr, 0)`: it fails when no conversion was
performed (`str == endptr`) and when the converted value is negative.
`parseDouble` wraps `strtod` the same way. We model the relevant fragment of
`strtol` base 0 (optional whitespace, optional sign, hex / octal / decimal
digits) and of `strtod` (optional whitespace, optional sign, decimal
mantissa with optional fraction and decimal exponent); the out-of-range
(`ERANGE`) path and `strtod`'s hex-float/infinity/NaN forms are not
exercised by any claim and are not modelled. -/

/-- Numeric value of a hex digit character (0 for non-digits). -/
def digitVal (ch : Char) : ℕ :=
  if ch.isDigit then ch.toNat - 48
  else if 'a' ≤ ch ∧ ch ≤ 'f' then ch.toNat - 87
  else if 'A' ≤ ch ∧ ch ≤ 'F' then ch.toNat - 55
  else 0

/-- Value of a digit string in the given base. -/
def digitsVal (base : ℕ) (ds : List Char) : ℕ :=
  ds.foldl (fun a ch => a * base + digitVal ch) 0

/-- Octal digit predicate. -/
def isOctDigit (ch : Char) : Bool :=
  decide ('0' ≤ ch) && decide (ch ≤ '7')

/-- Hexadecimal digit predicate. -/
def isHexDigitCh (ch : Char) : Bool :=
  ch.isDigit || (decide ('a' ≤ ch) && decide (ch ≤ 'f')) ||
    (decide ('A' ≤ ch) && decide (ch ≤ 'F'))

/-- Result of a C numeric conversion: the value and whether any conversion
was performed (`converted = false` models `str == endptr`). -/
structure NumParse where
  value : ℤ
  converted : Bool
deriving Repr, DecidableEq

/-- Strip the optional sign; returns (negative?, rest). -/
def stripSign : List Char → Bool × List Char
  | '-' :: r => (true, r)
  | '+' :: r => (false, r)
  | r => (false, r)

/-- The fragment of `strtol(str, &endptr, 0)` reachable from the repository:
skip whitespace, optional sign, then `0x`/`0X` hex, leading-`0` octal, or
decimal digits; conversion is performed iff at least one digit (including a
bare `0`) is consumed. -/
def strtolModel (l : List Char) : NumParse :=
  let t := l.dropWhile (fun ch => ch.isWhitespace)
  let sr := stripSign t
  let signed : ℤ → ℤ := fun v => if sr.1 then -v else v
  match sr.2 with
  | '0' :: rest =>
    match rest with
    | x :: r =>
      if x = 'x' ∨ x = 'X' then
        let ds := r.takeWhile isHexDigitCh
        if ds.isEmpty then ⟨0, true⟩
        else ⟨signed (digitsVal 16 ds), true⟩
      else
        let ds := ('0' :: rest).takeWhile isOctDigit
        ⟨signed (digitsVal 8 ds), true⟩
    | [] => ⟨0, true⟩
  | u =>
    let ds := u.takeWhile (fun ch => ch.isDigit)
    if ds.isEmpty then ⟨0, false⟩ else ⟨signed (digitsVal 10 ds), true⟩

/-- Why a numeric argument was rejected by `parseLong`/`parseInt`/
`parseDouble`. -/
inductive ParseErr where
  | noDigits
  | negative (v : ℤ)
  | tooLarge (v : ℤ)
deriving Repr, DecidableEq

/-- `parseLong` from `inputParsing.c`: reject when no digits were consumed
(`str == endptr`) or when the value is negative; otherwise store it. -/
def parseLongM (l : List Char) : Except ParseErr ℤ :=
  if (strtolModel l).converted = false then .error .noDigits
  else if (strtolModel l).value < 0 then .error (.negative (strtolModel l).value)
  else .ok (strtolModel l).value

/-- `parseInt` from `inputParsing.c`: `parseLong`, then reject values above
`INT_MAX`. -/
def parseIntM (l : List Char) : Except ParseErr ℤ :=
  match parseLongM l with
  | .error e => .error e
  | .ok v => if v > 2147483647 then .error (.tooLarge v) else .ok v

/-- The fragment of `strtod` reachable from the repository, as an exact
`Rate`: skip whitespace, optional sign, decimal digits with optional
fraction, optional decimal exponent. Conversion is performed iff the
mantissa has at least one digit. -/
def strtodModel (l : List Char) : Rate × Bool :=
  let t := l.dropWhile (fun ch => ch.isWhitespace)
  let sr := stripSign t
  let ds1 := sr.2.takeWhile (fun ch => ch.isDigit)
  let u1 := sr.2.dropWhile (fun ch => ch.isDigit)
  let fr : List Char × List Char :=
    match u1 with
    | '.' :: r => (r.takeWhile (fun ch => ch.isDigit), r.dropWhile (fun ch => ch.isDigit))
    | r => ([], r)
  if ds1.isEmpty ∧ fr.1.isEmpty then (⟨0, 1⟩, false)
  else
    let mant : ℤ := if sr.1 then -(digitsVal 10 (ds1 ++ fr.1) : ℤ)
      else (digitsVal 10 (ds1 ++ fr.1) : ℤ)
    let den := 10 ^ fr.1.length
    match fr.2 with
    | e :: r =>
      if e = 'e' ∨ e = 'E' then
        let er := stripSign r
        let eds := er.2.takeWhile (fun ch => ch.isDigit)
        if eds.isEmpty then (⟨mant, den⟩, true)
        else if er.1 then (⟨mant, den * 10 ^ digitsVal 10 eds⟩, true)
        else (⟨mant * (10 : ℤ) ^ digitsVal 10 eds, den⟩, true)
      else (⟨mant, den⟩, true)
    | [] => (⟨mant, den⟩, true)

/-- `parseDouble` from `inputParsing.c`: reject when no digits were consumed
or when the value is negative; otherwise store it. -/
def parseDoubleM (l : List Char) : Except ParseErr Rate :=
  if (strtodModel l).2 = false then .error .noDigits
  else if (strtodModel l).1.num < 0 then .error (.negative (strtodModel l).1.num)
  else .ok (strtodModel l).1

/-! ## The SQEIR command-line loop (`SQEIR.cpp` main) -/

/-- The configurable values of `SQEIR.cpp`: initial compartments (flags
`-s -q -e -i`), rates (`-b -g`) and horizon (`-y`), with the defaults from
`SQEIR.c`/`SQEIR.h` (`NUM_YEARS = 2`). -/
structure SqeirConfig where
  susceptible : ℤ
  quarantined : ℤ
  exposed : ℤ
  infected : ℤ
  infectionRate : Rate
  recoveryRate : Rate
  numYears : ℤ
deriving Repr, DecidableEq

/-- Defaults before any flag is applied. -/
def sqeirDefaultConfig : SqeirConfig := ⟨175000, 0, 100, 10, ⟨4, 10⟩, ⟨4, 100⟩, 2⟩

/-- A configuration error reported by `main` before the simulation starts:
a flag with no following value (`argv[++i] == nullptr`), an unknown flag
(the `switch` default), or a numeric value rejected by
`parseLong`/`parseInt`/`parseDouble`. -/
inductive ArgError where
  | missingValue (flag : String)
  | unknownFlag (flag : String)
  | badNumber (err : ParseErr)
deriving Repr, DecidableEq

/-- `argv[i][0] == '-'`. -/
def isFlagArg (a : String) : Bool :=
  match a.data with
  | '-' :: _ => true
  | _ => false

/-- `c = argv[i][1]` (the NUL terminator, modelled as `Char.ofNat 0`, when
the argument is just `"-"`). -/
def flagChar (a : String) : Char :=
  match a.data with
  | _ :: ch :: _ => ch
  | _ => Char.ofNat 0

/-- The `switch (c)` of `SQEIR.cpp` main: apply one flag's value to the
configuration, or fail as the code does. -/
def applyFlag (cfg : SqeirConfig) (a : String) (v : List Char) :
    Except ArgError SqeirConfig :=
  if flagChar a = 's' then
    match parseLongM v with
    | .ok x => .ok { cfg with susceptible := x }
    | .error e => .error (.badNumber e)
  else if flagChar a = 'q' then
    match parseLongM v with
    | .ok x => .ok { cfg with quarantined := x }
    | .error e => .error (.badNumber e)
  else if flagChar a = 'e' then
    match parseLongM v with
    | .ok x => .ok { cfg with exposed := x }
    | .error e => .error (.badNumber e)
  else if flagChar a = 'i' then
    match parseLongM v with
    | .ok x => .ok { cfg with infected := x }
    | .error e => .error (.badNumber e)
  else if flagChar a = 'b' then
    match parseDoubleM v with
    | .ok r => .ok { cfg with infectionRate := r }
    | .error e => .error (.badNumber e)
  else if flagChar a = 'g' then
    match parseDoubleM v with
    | .ok r => .ok { cfg with recoveryRate := r }
    | .error e => .error (.badNumber e)
  else if flagChar a = 'y' then
    match parseIntM v with
    | .ok x => .ok { cfg with numYears := x }
    | .error e => .error (.badNumber e)
  else .error (.unknownFlag a)

/-- The argument loop of `SQEIR.cpp` main: arguments not starting with `-`
are skipped; an argument starting with `-` consumes the next argument as its
value (failing with the usage message if there is none — this is checked
before the `switch`, so it applies to unknown flags too) and applies the
flag. -/
def parseArgsSqeir : SqeirConfig → List String → Except ArgError SqeirConfig
  | cfg, [] => .ok cfg
  | cfg, [a] => if isFlagArg a then .error (.missingValue a) else .ok cfg
  | cfg, a :: v :: rest =>
    if isFlagArg a then
      match applyFlag cfg a v.data with
      | .ok cfg2 => parseArgsSqeir cfg2 rest
      | .error e => .error e
    else parseArgsSqeir cfg (v :: rest)

/-- The compartment state entering round 1, after `main` subtracts the
infected count from the susceptible count
(`CurrentSusceptible -= CurrentInfected`, `SQEIR.cpp` line 119).
`CurrentRecovered` has no flag and starts at 0. -/
def sqeirConfigState (cfg : SqeirConfig) : SQEIRState :=
  ⟨cfg.susceptible - cfg.infected, cfg.quarantined, cfg.exposed, cfg.infected, 0⟩

/-- The rate parameters of a parsed configuration. -/
def sqeirConfigParams (cfg : SqeirConfig) : SQEIRParams :=
  ⟨cfg.infectionRate, cfg.recoveryRate⟩

/-- The round loop with report collection: while `NowYear < H`, all workers
commit `sqeirStep` and `Watcher()` prints the committed state at the current
clock, then advances the clock. -/
def sqeirRunLoop (p : SQEIRParams) (H : ℕ) :
    ℕ → ℕ × ℕ → SQEIRState → List (List ℤ)
  | 0, _, _ => []
  | fuel + 1, c, s =>
    if c.1 < H then
      sqeirCsvLine c (sqeirStep p s) ::
        sqeirRunLoop p H fuel (tick c) (sqeirStep p s)
    else []

/-- `SQEIR.cpp` main, returning the sequence of CSV report lines: parse the
arguments (on any configuration error, exit before any simulation round with
no report), subtract infected from susceptible, print the initial-state
report at clock `(0, 0)`, advance to month 1, and run the round loop to the
horizon. -/
def sqeirMainReports (args : List String) : Except ArgError (List (List ℤ)) :=
  match parseArgsSqeir sqeirDefaultConfig args with
  | .error e => .error e
  | .ok cfg =>
    .ok (sqeirCsvLine (0, 0) (sqeirConfigState cfg) ::
      sqeirRunLoop (sqeirConfigParams cfg) cfg.numYears.toNat
        (12 * cfg.numYears.toNat) (0, 1) (sqeirConfigState cfg))

/-- All numeric fields of a configuration are non-negative. -/
def SqeirConfig.Nonneg (cfg : SqeirConfig) : Prop :=
  0 ≤ cfg.susceptible ∧ 0 ≤ cfg.quarantined ∧ 0 ≤ cfg.exposed ∧
    0 ≤ cfg.infected ∧ 0 ≤ cfg.infectionRate.num ∧ 0 ≤ cfg.recoveryRate.num ∧
    0 ≤ cfg.numYears

/-- The SIR driver's pre-round-1 adjustment (`SIR Model/SIR.cpp` lines
188-191): after parsing, `CurrentSusceptible -= CurrentInfected`, with
`CurrentInfected` and `CurrentRecovered` unchanged. -/
def sirEnterRound1 (s i r : ℤ) : SIRState := ⟨s - i, i, r⟩

/-! ## Theorems -/

theorem runEvents_append {n : ℕ} (rule : Fin n → (Fin n → ℤ) → ℤ) (c : Conc n)
    (l₁ l₂ : List (Ev n)) :
    runEvents rule c (l₁ ++ l₂) = runEvents rule (runEvents rule c l₁) l₂ :=
  List.foldl_append _ _ _ _

/-- During a phase consisting only of compute events, the shared compartments
and the clock never change, and each worker that computed holds its rule
applied to the phase-initial shared state. -/
theorem computePhase {n : ℕ} (rule : Fin n → (Fin n → ℤ) → ℤ)
    (cs : List (Ev n)) (h : ∀ e ∈ cs, e.isCompute = true) (c : Conc n) :
    (runEvents rule c cs).shared = c.shared ∧
    (runEvents rule c cs).clock = c.clock ∧
    ∀ v, (runEvents rule c cs).buf v =
      if Ev.compute v ∈ cs then rule v c.shared else c.buf v := by
  induction cs generalizing c with
  | nil => simp [runEvents]
  | cons e cs ih =>
    cases e with
    | compute w =>
      have hcs : ∀ e ∈ cs, Ev.isCompute e = true := fun e he => h e (List.mem_cons_of_mem _ he)
      obtain ⟨ih₁, ih₂, ih₃⟩ := ih hcs (evStep rule c (.compute w))
      refine ⟨by simpa [runEvents, evStep] using ih₁, by simpa [runEvents, evStep] using ih₂, ?_⟩
      intro v
      have h₃ := ih₃ v
      simp only [runEvents, List.foldl_cons] at *
      rw [h₃]
      by_cases hv : Ev.compute v ∈ cs
      · simp [hv, evStep]
      · by_cases hvw : v = w
        · subst hvw
          simp [hv, evStep, Function.update]
        · simp [hv, evStep, Function.update, hvw, Ne.symm hvw]
    | commit w => simpa [ Ev.isCompute] using h (.commit w) (List.mem_cons_self _ _)
    | report => simpa [ Ev.isCompute] using h .report (List.mem_cons_self _ _)

/-- During a phase consisting only of commit events, the private computed
values and the clock never change, and each shared compartment that was
committed holds its worker's private value; the rest keep their
phase-initial values. -/
theorem commitPhase {n : ℕ} (rule : Fin n → (Fin n → ℤ) → ℤ)
    (ms : List (Ev n)) (h : ∀ e ∈ ms, e.isCommit = true) (c : Conc n) :
    (runEvents rule c ms).buf = c.buf ∧
    (runEvents rule c ms).clock = c.clock ∧
    ∀ v, (runEvents rule c ms).shared v =
      if Ev.commit v ∈ ms then c.buf v else c.shared v := by
  induction ms generalizing c with
  | nil => simp [runEvents]
  | cons e ms ih =>
    cases e with
    | commit w =>
      have hms : ∀ e ∈ ms, Ev.isCommit e = true := fun e he => h e (List.mem_cons_of_mem _ he)
      obtain ⟨ih₁, ih₂, ih₃⟩ := ih hms (evStep rule c (.commit w))
      refine ⟨by simpa [runEvents, evStep] using ih₁, by simpa [runEvents, evStep] using ih₂, ?_⟩
      intro v
      have h₃ := ih₃ v
      simp only [runEvents, List.foldl_cons] at *
      rw [h₃]
      by_cases hv : Ev.commit v ∈ ms
      · simp [hv, evStep]
      · by_cases hvw : v = w
        · subst hvw
          simp [hv, evStep, Function.update]
        · simp [hv, evStep, Function.update, hvw, Ne.symm hvw]
    | compute w => simpa [ Ev.isCommit] using h (.compute w) (List.mem_cons_self _ _)
    | report => simpa [ Ev.isCommit] using h .report (List.mem_cons_self _ _)

theorem sirRule_vec (p : SIRParams) (s : SIRState) (w : Fin 3) :
    sirRule p w (sirVec s) = sirVec (sirStep p s) w := by
  fin_cases w <;> rfl

/-! ## Non-negativity -/

/-- Certification of the rounding model against Mathlib's floor on `ℚ`: for
non-negative arguments, `croundFrac n d` is `⌊n/d + 1/2⌋`, i.e. round half
up, which on non-negative values coincides with C99 `round`'s round half
away from zero. -/
theorem croundFrac_eq_floor (n : ℤ) (d : ℕ) (hd : 0 < d) (hn : 0 ≤ n) :
    croundFrac n d = ⌊(n : ℚ) / (d : ℚ) + 1 / 2⌋ := by
  have hd0 : (d : ℚ) ≠ 0 := Nat.cast_ne_zero.mpr hd.ne'
  have h1 : (n : ℚ) / d + 1 / 2 = ((2 * n + d : ℤ) : ℚ) / ((2 * d : ℕ) : ℚ) := by
    push_cast
    field_simp
    ring
  rw [croundFrac, if_pos hn, h1, Rat.floor_intCast_div_natCast]
  push_cast
  rfl

/-- Certification of the rounding model for negative arguments:
`croundFrac n d` is `⌈n/d - 1/2⌉`, C99 `round`'s round half away from zero
on negative values. -/
theorem croundFrac_eq_ceil (n : ℤ) (d : ℕ) (hd : 0 < d) (hn : n < 0) :
    croundFrac n d = ⌈(n : ℚ) / (d : ℚ) - 1 / 2⌉ := by
  have h := croundFrac_eq_floor (-n) d hd (by omega)
  rw [croundFrac, if_pos (by omega : (0:ℤ) ≤ -n)] at h
  rw [croundFrac, if_neg (by omega)]
  rw [h, ← Int.ceil_neg]
  congr 1
  push_cast
  ring

theorem croundFrac_nonneg (n : ℤ) (d : ℕ) (h : 0 ≤ n) : 0 ≤ croundFrac n d := by
  unfold croundFrac
  rw [if_pos h]
  exact Int.ediv_nonneg (by omega) (by omega)

theorem rateRound_nonneg (r : Rate) (x : ℤ) (hr : 0 ≤ r.num) (hx : 0 ≤ x) :
    0 ≤ rateRound r x :=
  croundFrac_nonneg _ _ (mul_nonneg hr hx)

theorem clampNonneg_nonneg (x : ℤ) : 0 ≤ clampNonneg x := by
  unfold clampNonneg
  split <;> omega

theorem clampNonneg_of_neg (x : ℤ) (h : x < 0) : clampNonneg x = 0 := by
  unfold clampNonneg
  rw [if_pos h]

theorem sirStep_nonneg (p : SIRParams) (s : SIRState) (hp : p.Nonneg)
    (hs : s.Nonneg) : (sirStep p s).Nonneg := by
  refine ⟨clampNonneg_nonneg _, clampNonneg_nonneg _, ?_⟩
  exact add_nonneg hs.2.2 (rateRound_nonneg _ _ hp.2 hs.2.1)

theorem sirIter_nonneg (p : SIRParams) (s : SIRState) (hp : p.Nonneg)
    (hs : s.Nonneg) : ∀ n : ℕ, (sirIter p n s).Nonneg := by
  intro n
  induction n with
  | zero => exact hs
  | succ n ih => exact sirStep_nonneg p _ hp ih

/-! ## Claim theorems (C1, C2, C3, C9) -/

/-- C1 counterexample. The claim asserts that for the SIR-style 3-compartment
run from Susceptible=175000, Infected=10, Recovered=0 with rates 0.4 / 0.04,
the committed round-1 Infected value is
`10 + round(175000 × 0.4) − round(10 × 0.04)` clamped at 0, which evaluates
to 70010. The code (`Infected()` in `SIR Model/SIR_C/SIR.c`) instead adds
`round(InfectionRate * ((CurrentSusceptible * CurrentInfected)/TotalPopulation))
= round(0.4 * 10) = 4`, committing 14. The claimed Susceptible and Recovered
values do hold, so the Infected conjunct refutes the claim. -/
theorem c1_round1_counterexample :
    (sirStep sirDefaults sirInit).susceptible = 174996 ∧
    (sirStep sirDefaults sirInit).recovered = 0 ∧
    (sirStep sirDefaults sirInit).infected = 14 ∧
    clampNonneg (10 + rateRound sirDefaults.infectionRate 175000 -
      rateRound sirDefaults.recoveryRate 10) = 70010 ∧
    (14 : ℤ) ≠ 70010 := by
  decide

/-- C1 amended. After round 1 from Susceptible=175000, Infected=10,
Recovered=0 with rates 0.4 / 0.04 the committed values are exactly
Susceptible = 175000 − round(0.4·((175000·10)/175000)) = 174996,
Infected = 10 + round(0.4·((175000·10)/175000)) − round(10·0.04) = 14
(clamped at 0), and Recovered = 0 + round(10·0.04) = 0, where the inner
division is C integer division. -/
theorem c1_round1_amended :
    sirStep sirDefaults sirInit = ⟨174996, 14, 0⟩ ∧
    (sirStep sirDefaults sirInit).susceptible =
      175000 - rateRound sirDefaults.infectionRate (Int.tdiv (175000 * 10) 175000) ∧
    (sirStep sirDefaults sirInit).infected =
      clampNonneg (10 + rateRound sirDefaults.infectionRate (Int.tdiv (175000 * 10) 175000) -
        rateRound sirDefaults.recoveryRate 10) ∧
    (sirStep sirDefaults sirInit).recovered = 0 + rateRound sirDefaults.recoveryRate 10 := by
  decide

/-- C2: snapshot isolation. In any schedule of one round's events in which
every compute event precedes every commit event (the `DoneComputing` barrier)
and the report comes last (the `DoneAssigning` barrier), every worker's
computation reads only the round-start committed compartment values, and the
round's outcome is exactly the synchronous snapshot step — stated for an
arbitrary variant (any compartment count and rule set) and instantiated to
the SIR variant, where the outcome is `sirStep`. -/
theorem c2_snapshot_isolation :
    (∀ (n : ℕ) (rule : Fin n → (Fin n → ℤ) → ℤ) (c₀ : Conc n)
        (cs ms : List (Ev n)),
      (∀ e ∈ cs, e.isCompute = true) → (∀ e ∈ ms, e.isCommit = true) →
      (∀ w, Ev.compute w ∈ cs) → (∀ w, Ev.commit w ∈ ms) →
      (runEvents rule c₀ (cs ++ ms ++ [Ev.report])).shared =
        fun w => rule w c₀.shared) ∧
    (∀ (p : SIRParams) (s : SIRState) (b : Fin 3 → ℤ) (k : ℕ × ℕ)
        (cs ms : List (Ev 3)),
      (∀ e ∈ cs, e.isCompute = true) → (∀ e ∈ ms, e.isCommit = true) →
      (∀ w, Ev.compute w ∈ cs) → (∀ w, Ev.commit w ∈ ms) →
      (runEvents (sirRule p) ⟨sirVec s, b, k⟩ (cs ++ ms ++ [Ev.report])).shared =
        sirVec (sirStep p s)) := by
  have main : ∀ (n : ℕ) (rule : Fin n → (Fin n → ℤ) → ℤ) (c₀ : Conc n)
      (cs ms : List (Ev n)),
      (∀ e ∈ cs, e.isCompute = true) → (∀ e ∈ ms, e.isCommit = true) →
      (∀ w, Ev.compute w ∈ cs) → (∀ w, Ev.commit w ∈ ms) →
      (runEvents rule c₀ (cs ++ ms ++ [Ev.report])).shared =
        fun w => rule w c₀.shared := by
    intro n rule c₀ cs ms hcs hms hcall hmall
    funext w
    rw [List.append_assoc, runEvents_append]
    obtain ⟨h₁, _, h₃⟩ := computePhase rule cs hcs c₀
    rw [runEvents_append]
    obtain ⟨_, _, g₃⟩ := commitPhase rule ms hms (runEvents rule c₀ cs)
    have hrep : ∀ (c : Conc n), (runEvents rule c [Ev.report]).shared = c.shared := by
      intro c
      rfl
    rw [hrep]
    rw [g₃ w, if_pos (hmall w), h₃ w, if_pos (hcall w)]
  refine ⟨main, ?_⟩
  intro p s b k cs ms hcs hms hcall hmall
  rw [main 3 (sirRule p) ⟨sirVec s, b, k⟩ cs ms hcs hms hcall hmall]
  funext w
  exact sirRule_vec p s w

/-- C2 witness: a concrete out-of-order schedule of the SIR round (computes
in the order Recovered, Susceptible, Infected; commits in the order Infected,
Recovered, Susceptible) still produces exactly the snapshot step. -/
theorem c2_snapshot_isolation_witness :
    (runEvents (sirRule sirDefaults) ⟨sirVec sirInit, fun _ => 0, (0, 1)⟩
        ([Ev.compute 2, Ev.compute 0, Ev.compute 1] ++
          [Ev.commit 1, Ev.commit 2, Ev.commit 0] ++ [Ev.report])).shared =
      sirVec (sirStep sirDefaults sirInit) :=
  c2_snapshot_isolation.2 sirDefaults sirInit (fun _ => 0) (0, 1) _ _
    (by decide) (by decide) (by decide) (by decide)

/-- C9: a worker's commit writes only its own compartment. Committing worker
`w`'s value changes neither the clock, nor any private computed value, nor
any shared compartment other than `w`'s own, which receives exactly `w`'s
computed value. (Reads are unrestricted: a compute event's rule receives the
whole shared compartment vector by construction of `evStep`.) -/
theorem c9_commit_frame (n : ℕ) (rule : Fin n → (Fin n → ℤ) → ℤ)
    (c : Conc n) (w v : Fin n) :
    (evStep rule c (Ev.commit w)).clock = c.clock ∧
    (evStep rule c (Ev.commit w)).buf = c.buf ∧
    (evStep rule c (Ev.commit w)).shared w = c.buf w ∧
    (v ≠ w → (evStep rule c (Ev.commit w)).shared v = c.shared v) := by
  refine ⟨rfl, rfl, by simp [evStep], fun hv => by simp [evStep, Function.update, hv]⟩

/-- C9 witness: in the SIR instance, the Susceptible worker's commit leaves
the Infected compartment, the private values and the clock untouched. -/
theorem c9_commit_frame_witness :
    (evStep (sirRule sirDefaults) ⟨sirVec sirInit, fun _ => 7, (0, 1)⟩
      (Ev.commit 0)).clock = (0, 1) ∧
    (evStep (sirRule sirDefaults) ⟨sirVec sirInit, fun _ => 7, (0, 1)⟩
      (Ev.commit 0)).shared 1 = sirVec sirInit 1 :=
  ⟨(c9_commit_frame 3 (sirRule sirDefaults) ⟨sirVec sirInit, fun _ => 7, (0, 1)⟩ 0 1).1,
    (c9_commit_frame 3 (sirRule sirDefaults) ⟨sirVec sirInit, fun _ => 7, (0, 1)⟩ 0 1).2.2.2
      (by decide)⟩

/-! ## The round loop and report counting

`Watcher()` prints exactly one report line per loop iteration and then
advances the clock; all tasks loop `while (NowYear < NumYears)` (resp.
`while (NowYear < END_YEAR)`). The drivers `SQEIR.cpp` and the SIR driver
print one initial-state report before the loop and set `NowMonth = 1`; the
zombie driver `zombieSIInZD.cpp` prints no initial report and leaves the
clock at `(START_YEAR, 0)`. -/

theorem tick_month_le (c : ℕ × ℕ) (h : c.2 ≤ 11) : (tick c).2 ≤ 11 := by
  unfold tick
  split
  · simp
  · simp
    omega

theorem tick_linear (c : ℕ × ℕ) (h : c.2 ≤ 11) :
    12 * (tick c).1 + (tick c).2 = 12 * c.1 + c.2 + 1 := by
  unfold tick
  split <;> simp <;> omega

theorem tick_year (c : ℕ × ℕ) (h : c.2 ≤ 11) :
    (tick c).1 = if c.2 = 11 then c.1 + 1 else c.1 := by
  unfold tick
  split <;> split <;> simp <;> omega

theorem tick_year_le (c : ℕ × ℕ) : (tick c).1 ≤ c.1 + 1 := by
  unfold tick
  split
  · simp
  · simp

/-- With sufficient fuel the loop terminates, and the number of report lines
is exactly `12*H` minus the start clock's linear month index. -/
theorem loopReports_eq (H : ℕ) :
    ∀ (fuel : ℕ) (c : ℕ × ℕ), c.2 ≤ 11 → 12 * H ≤ 12 * c.1 + c.2 + fuel →
      loopReports H fuel c = 12 * H - (12 * c.1 + c.2) := by
  intro fuel
  induction fuel with
  | zero =>
    intro c hm hf
    simp only [loopReports]
    omega
  | succ fuel ih =>
    intro c hm hf
    simp only [loopReports]
    split
    · rw [ih (tick c) (tick_month_le c hm) (by rw [tick_linear c hm]; omega)]
      rw [tick_linear c hm]
      omega
    · omega

/-- C4 counterexample. With horizon `H` equal to the start year (SQEIR with
`-y 0`), the claim demands `12*(H - startYear) = 0` reports, but the SQEIR
driver prints its initial-state report unconditionally before the loop, so
exactly 1 report is emitted. -/
theorem c4_report_count_counterexample :
    sqeirReportTotal 0 = 1 ∧ 12 * (0 - 0) = 0 ∧ (1 : ℕ) ≠ 0 := by
  decide

/-- C4 amended. The round loop terminates (its report count is independent
of any fuel beyond the bound), and: for every horizon `H` strictly greater
than the start year, the SQEIR-style variants (which print one initial-state
report and start the loop at month 1) emit exactly `12*H = 12*(H - 0)`
reports in total, and the zombie variant (no initial report, loop from
`(2023, 0)`) emits exactly `12*(H - 2023)` reports; at `H = startYear` the
variants that print an initial-state report emit exactly 1. -/
theorem c4_report_count_amended :
    (∀ (H fuel : ℕ) (c : ℕ × ℕ), c.2 ≤ 11 → 12 * H ≤ 12 * c.1 + c.2 + fuel →
      loopReports H fuel c = 12 * H - (12 * c.1 + c.2)) ∧
    (∀ H : ℕ, 1 ≤ H → sqeirReportTotal H = 12 * H) ∧
    (∀ H : ℕ, 2023 ≤ H → zombieReportTotal H = 12 * (H - 2023)) ∧
    sqeirReportTotal 0 = 1 := by
  refine ⟨fun H fuel c hm hf => loopReports_eq H fuel c hm hf, ?_, ?_, by decide⟩
  · intro H hH
    unfold sqeirReportTotal
    rw [loopReports_eq H (12 * H) (0, 1) (by omega) (by omega)]
    omega
  · intro H hH
    unfold zombieReportTotal
    rw [loopReports_eq H (12 * H) (2023, 0) (by omega) (by omega)]
    omega

/-- C4 witness: horizon 2 for the SQEIR shape gives 24 reports, horizon 2025
for the zombie shape gives 24 reports. -/
theorem c4_report_count_witness :
    sqeirReportTotal 2 = 12 * 2 ∧ zombieReportTotal 2025 = 12 * (2025 - 2023) :=
  ⟨c4_report_count_amended.2.1 2 (by decide),
    c4_report_count_amended.2.2.1 2025 (by decide)⟩

theorem loopTick_year_le (H : ℕ) (c : ℕ × ℕ) (h : c.1 ≤ H) :
    (loopTick H c).1 ≤ H := by
  unfold loopTick
  split
  · next hlt =>
      have := tick_year_le c
      omega
  · exact h

/-- C6: the simulation clock. (1) The month stays in `[0, 11]`; (2) each
round advances the linear month index by exactly one; (3) the year
increments exactly when the month wraps past 11; (4) in any
barrier-respecting round schedule no compute or commit event changes the
clock — the clock is written exactly once, by the report event after all
commits, and the round's final clock is `tick` of the round-start clock;
(5) the guarded round loop never advances the year past the horizon. -/
theorem c6_clock_invariants :
    (∀ y m : ℕ, m ≤ 11 → (tick (y, m)).2 ≤ 11) ∧
    (∀ y m : ℕ, m ≤ 11 → 12 * (tick (y, m)).1 + (tick (y, m)).2 = 12 * y + m + 1) ∧
    (∀ y m : ℕ, m ≤ 11 → (tick (y, m)).1 = if m = 11 then y + 1 else y) ∧
    (∀ (n : ℕ) (rule : Fin n → (Fin n → ℤ) → ℤ) (c : Conc n)
        (cs ms : List (Ev n)),
      (∀ e ∈ cs, e.isCompute = true) → (∀ e ∈ ms, e.isCommit = true) →
      (runEvents rule c (cs ++ ms)).clock = c.clock ∧
      (runEvents rule c (cs ++ ms ++ [Ev.report])).clock = tick c.clock) ∧
    (∀ (H y₀ m₀ k : ℕ), y₀ ≤ H → ((loopTick H)^[k] (y₀, m₀)).1 ≤ H) := by
  refine ⟨fun y m h => tick_month_le (y, m) h,
    fun y m h => tick_linear (y, m) h,
    fun y m h => tick_year (y, m) h, ?_, ?_⟩
  · intro n rule c cs ms hcs hms
    have h₁ : (runEvents rule c (cs ++ ms)).clock = c.clock := by
      rw [runEvents_append]
      rw [(commitPhase rule ms hms (runEvents rule c cs)).2.1]
      exact (computePhase rule cs hcs c).2.1
    refine ⟨h₁, ?_⟩
    have h₂ : (runEvents rule (runEvents rule c cs) ms).clock = c.clock := by
      rw [← runEvents_append]
      exact h₁
    rw [runEvents_append, runEvents_append]
    show tick (runEvents rule (runEvents rule c cs) ms).clock = tick c.clock
    rw [h₂]
  · intro H y₀ m₀ k hy
    induction k with
    | zero => simpa using hy
    | succ k ih =>
      rw [Function.iterate_succ_apply']
      exact loopTick_year_le H _ ih

/-- C6 witness: the default SQEIR clock. -/
theorem c6_clock_invariants_witness :
    (tick (0, 11)).2 ≤ 11 ∧
    12 * (tick (1, 5)).1 + (tick (1, 5)).2 = 12 * 1 + 5 + 1 ∧
    ((loopTick 2)^[30] (0, 1)).1 ≤ 2 :=
  ⟨c6_clock_invariants.1 0 11 (by decide),
    c6_clock_invariants.2.1 1 5 (by decide),
    c6_clock_invariants.2.2.2.2 2 0 1 30 (by decide)⟩

theorem sqeirStep_nonneg (p : SQEIRParams) (s : SQEIRState) (hp : p.Nonneg)
    (hs : s.Nonneg) : (sqeirStep p s).Nonneg := by
  refine ⟨clampNonneg_nonneg _, clampNonneg_nonneg _, clampNonneg_nonneg _,
    clampNonneg_nonneg _, ?_⟩
  exact add_nonneg hs.2.2.2.2 (rateRound_nonneg _ _ hp.2 hs.2.2.2.1)

theorem sqeirIter_nonneg (p : SQEIRParams) (s : SQEIRState) (hp : p.Nonneg)
    (hs : s.Nonneg) : ∀ n : ℕ, (sqeirIter p n s).Nonneg := by
  intro n
  induction n with
  | zero => exact hs
  | succ n ih => exact sqeirStep_nonneg p _ hp ih

theorem zombieStep_nonneg (p : ZombieParams) (s : ZombieState) :
    (zombieStep p s).Nonneg :=
  ⟨clampNonneg_nonneg _, clampNonneg_nonneg _, clampNonneg_nonneg _,
    clampNonneg_nonneg _, clampNonneg_nonneg _⟩

theorem zombieIter_nonneg (p : ZombieParams) (s : ZombieState)
    (hs : s.Nonneg) : ∀ n : ℕ, (zombieIter p n s).Nonneg := by
  intro n
  induction n with
  | zero => exact hs
  | succ n _ => exact zombieStep_nonneg p _

/-- C8 counterexample. At clock year 2024, month 3, the zombie variant's
CSV line begins with `NowMonth + 12*(NowYear - START_YEAR) = 15`, not with
the claim's `12*currentYear + currentMonth = 24291`. -/
theorem c8_csv_counterexample :
    (zombieCsvLine (2024, 3) zombieInit).head? = some 15 ∧
    specLinearIndex (2024, 3) = 24291 ∧ (15 : ℤ) ≠ 24291 := by
  decide

/-- C8 amended. Every CSV round report line consists of a leading linear
month index followed by the current value of every compartment in the fixed
declared order; the leading index is `12*(currentYear - startYear) +
currentMonth`, which equals the claim's `12*currentYear + currentMonth`
exactly in the variants whose start year is 0 (SQEIR), while the zombie
variant (start year 2023) offsets it by `12*START_YEAR`. -/
theorem c8_csv_amended :
    (∀ (c : ℕ × ℕ) (s : SQEIRState),
      sqeirCsvLine c s = specLinearIndex c ::
        [s.susceptible, s.quarantined, s.exposed, s.infected, s.recovered]) ∧
    (∀ (c : ℕ × ℕ) (z : ZombieState),
      zombieCsvLine c z = (specLinearIndex c - 12 * (START_YEAR : ℤ)) ::
        [z.susceptible, z.immune, z.infected, z.zombies, z.dead]) := by
  constructor
  · intro c s
    simp [sqeirCsvLine, specLinearIndex]
    ring
  · intro c z
    simp [zombieCsvLine, specLinearIndex, START_YEAR]
    ring

/-- C10: the Recovered compartment is monotonically non-decreasing from
round to round, in both the SIR variant (`SIR.c`) and the SQEIR variant
(`SQEIR.c`): its update rule has only the inflow term
`round(CurrentInfected * RecoveryRate)` and no outflow, and on runs with
non-negative rates and initial values that inflow is non-negative. -/
theorem c10_recovered_monotone (p : SIRParams) (s : SIRState)
    (hp : p.Nonneg) (hs : s.Nonneg) (q : SQEIRParams) (t : SQEIRState)
    (hq : q.Nonneg) (ht : t.Nonneg) :
    (∀ n : ℕ, (sirIter p n s).recovered ≤ (sirIter p (n + 1) s).recovered) ∧
    (∀ n : ℕ, (sqeirIter q n t).recovered ≤ (sqeirIter q (n + 1) t).recovered) := by
  constructor
  · intro n
    have hinv := sirIter_nonneg p s hp hs n
    show (sirIter p n s).recovered ≤ (sirStep p (sirIter p n s)).recovered
    have : 0 ≤ rateRound p.recoveryRate (sirIter p n s).infected :=
      rateRound_nonneg _ _ hp.2 hinv.2.1
    show (sirIter p n s).recovered ≤
      (sirIter p n s).recovered + rateRound p.recoveryRate (sirIter p n s).infected
    omega
  · intro n
    have hinv := sqeirIter_nonneg q t hq ht n
    have : 0 ≤ rateRound q.recoveryRate (sqeirIter q n t).infected :=
      rateRound_nonneg _ _ hq.2 hinv.2.2.2.1
    show (sqeirIter q n t).recovered ≤
      (sqeirIter q n t).recovered + rateRound q.recoveryRate (sqeirIter q n t).infected
    omega

/-- C10 witness: default configurations, round 1 to round 2. -/
theorem c10_recovered_monotone_witness :
    (sirIter sirDefaults 1 sirInit).recovered ≤
      (sirIter sirDefaults 2 sirInit).recovered ∧
    (sqeirIter sqeirDefaults 1 sqeirInit).recovered ≤
      (sqeirIter sqeirDefaults 2 sqeirInit).recovered :=
  ⟨(c10_recovered_monotone sirDefaults sirInit ⟨by decide, by decide⟩
      ⟨by decide, by decide, by decide⟩ sqeirDefaults sqeirInit
      ⟨by decide, by decide⟩
      ⟨by decide, by decide, by decide, by decide, by decide⟩).1 1,
    (c10_recovered_monotone sirDefaults sirInit ⟨by decide, by decide⟩
      ⟨by decide, by decide, by decide⟩ sqeirDefaults sqeirInit
      ⟨by decide, by decide⟩
      ⟨by decide, by decide, by decide, by decide, by decide⟩).2 1⟩

theorem parseLongM_ok_nonneg (l : List Char) (x : ℤ)
    (h : parseLongM l = .ok x) : 0 ≤ x := by
  unfold parseLongM at h
  split at h
  · simp at h
  · split at h
    · simp at h
    · next hneg =>
        simp only [Except.ok.injEq] at h
        omega

theorem parseIntM_ok_nonneg (l : List Char) (x : ℤ)
    (h : parseIntM l = .ok x) : 0 ≤ x := by
  unfold parseIntM at h
  split at h
  · simp at h
  · next v heq =>
      split at h
      · simp at h
      · simp only [Except.ok.injEq] at h
        subst h
        exact parseLongM_ok_nonneg l v heq

theorem parseDoubleM_ok_nonneg (l : List Char) (r : Rate)
    (h : parseDoubleM l = .ok r) : 0 ≤ r.num := by
  unfold parseDoubleM at h
  split at h
  · simp at h
  · split at h
    · simp at h
    · next hneg =>
        simp only [Except.ok.injEq] at h
        subst h
        omega

theorem applyFlag_nonneg (cfg : SqeirConfig) (a : String) (v : List Char)
    (cfg2 : SqeirConfig) (hc : cfg.Nonneg) (h : applyFlag cfg a v = .ok cfg2) :
    cfg2.Nonneg := by
  unfold applyFlag at h
  obtain ⟨h₁, h₂, h₃, h₄, h₅, h₆, h₇⟩ := hc
  split_ifs at h
  all_goals split at h
  all_goals try exact Except.noConfusion h
  all_goals simp only [Except.ok.injEq] at h
  all_goals subst h
  all_goals refine ⟨?_, ?_, ?_, ?_, ?_, ?_, ?_⟩
  all_goals try assumption
  all_goals first
    | (apply parseLongM_ok_nonneg v; assumption)
    | (apply parseDoubleM_ok_nonneg v; assumption)
    | (apply parseIntM_ok_nonneg v; assumption)

theorem parseArgsSqeir_nonneg (n : ℕ) :
    ∀ (args : List String), args.length ≤ n →
      ∀ (cfg₀ cfg : SqeirConfig), cfg₀.Nonneg →
        parseArgsSqeir cfg₀ args = .ok cfg → cfg.Nonneg := by
  induction n with
  | zero =>
    intro args hlen cfg₀ cfg h₀ h
    have : args = [] := List.eq_nil_of_length_eq_zero (by omega)
    subst this
    simp only [parseArgsSqeir, Except.ok.injEq] at h
    subst h
    exact h₀
  | succ n ih =>
    intro args hlen cfg₀ cfg h₀ h
    match args with
    | [] =>
      simp only [parseArgsSqeir, Except.ok.injEq] at h
      subst h
      exact h₀
    | [a] =>
      simp only [parseArgsSqeir] at h
      split at h
      · simp at h
      · simp only [Except.ok.injEq] at h
        subst h
        exact h₀
    | a :: v :: rest =>
      simp only [parseArgsSqeir] at h
      split at h
      · split at h
        · next cfg2 heq =>
            exact ih rest (by simp at hlen; omega) cfg2 cfg
              (applyFlag_nonneg cfg₀ a v.data cfg2 h₀ heq) h
        · simp at h
      · exact ih (v :: rest) (by simp at hlen ⊢; omega) cfg₀ cfg h₀ h

/-- C5 counterexample. The numeric argument `12abc` is malformed (it is not
a numeral: it has non-digit trailing characters), yet the process does not
exit with an error: `strtol` converts the prefix `12`, `parseLong` accepts
it, and the simulation runs and emits round reports. -/
theorem c5_config_error_counterexample :
    parseLongM (String.data ("12abc")) = .ok 12 ∧
    (sqeirMainReports [("-s"), ("12abc")]).isOk = true ∧
    ¬ List.all (String.data ("12abc")) (fun ch => ch.isDigit) = true := by
  refine ⟨by rfl, ?_, by decide⟩
  have h : parseArgsSqeir sqeirDefaultConfig [("-s"), ("12abc")] =
      .ok ⟨12, 0, 100, 10, ⟨4, 10⟩, ⟨4, 100⟩, 2⟩ := by rfl
  unfold sqeirMainReports
  rw [h]
  rfl

/-- C5 amended. Every configuration error that the parser detects — a flag
supplied with no following value, an unknown flag, a numeric argument with
no parseable digits, and a negative value where a non-negative one is
required — aborts the process before any simulation round runs, so no round
report is emitted (conjunct 1: any parse error yields an error exit with no
report list); in particular `-s` with no following value fails with an error
naming `-s`. A numeric argument with a valid non-negative prefix followed by
trailing garbage (e.g. `12abc`) is however accepted with the prefix's value,
so only digit-free numeric arguments are rejected as malformed. Every
accepted configuration has all numeric fields non-negative. -/
theorem c5_config_errors_amended :
    (∀ (args : List String) (e : ArgError),
      parseArgsSqeir sqeirDefaultConfig args = .error e →
      sqeirMainReports args = .error e) ∧
    sqeirMainReports [("-s")] = .error (.missingValue ("-s")) ∧
    sqeirMainReports [("-z"), ("5")] = .error (.unknownFlag ("-z")) ∧
    sqeirMainReports [("-s"), ("abc")] = .error (.badNumber .noDigits) ∧
    sqeirMainReports [("-s"), ("-5")] = .error (.badNumber (.negative (-5))) ∧
    sqeirMainReports [("-b"), ("-0.4")] = .error (.badNumber (.negative (-4))) ∧
    (∀ (args : List String) (cfg : SqeirConfig),
      parseArgsSqeir sqeirDefaultConfig args = .ok cfg → cfg.Nonneg) := by
  refine ⟨?_, by rfl, by rfl, by rfl, by rfl, by rfl, ?_⟩
  · intro args e h
    unfold sqeirMainReports
    rw [h]
  · intro args cfg h
    exact parseArgsSqeir_nonneg args.length args le_rfl sqeirDefaultConfig cfg
      (by refine ⟨?_, ?_, ?_, ?_, ?_, ?_, ?_⟩ <;> decide) h

/-- C5 witness: the missing-value error path, obtained through the
universally quantified first conjunct at the concrete argument list
`["-s"]`. -/
theorem c5_config_errors_amended_witness :
    sqeirMainReports [("-s")] = .error (.missingValue ("-s")) :=
  c5_config_errors_amended.1 [("-s")] (.missingValue ("-s")) (by rfl)

/-- C7: before the first round, after command-line parsing, both drivers
subtract the initial infected count from the initial susceptible count: for
every successfully parsed SQEIR configuration the state entering round 1
holds `susceptible − infected` (and differs from the configured susceptible
whenever the infected count is nonzero), and likewise for the SIR driver's
adjustment. -/
theorem c7_susceptible_adjustment (args : List String) (cfg : SqeirConfig)
    (_h : parseArgsSqeir sqeirDefaultConfig args = .ok cfg) :
    (sqeirConfigState cfg).susceptible = cfg.susceptible - cfg.infected ∧
    (cfg.infected ≠ 0 →
      (sqeirConfigState cfg).susceptible ≠ cfg.susceptible) ∧
    (∀ s i r : ℤ, (sirEnterRound1 s i r).susceptible = s - i ∧
      (sirEnterRound1 s i r).infected = i) := by
  refine ⟨rfl, ?_, fun s i r => ⟨rfl, rfl⟩⟩
  intro hi
  show cfg.susceptible - cfg.infected ≠ cfg.susceptible
  omega

/-- C7 witness: parsing `-s 100 -i 7` enters round 1 with susceptible 93. -/
theorem c7_susceptible_adjustment_witness :
    (sqeirConfigState ⟨100, 0, 100, 7, ⟨4, 10⟩, ⟨4, 100⟩, 2⟩).susceptible =
      100 - 7 ∧
    (sqeirConfigState ⟨100, 0, 100, 7, ⟨4, 10⟩, ⟨4, 100⟩, 2⟩).susceptible ≠ 100 :=
  ⟨(c7_susceptible_adjustment [("-s"), ("100"), ("-i"), ("7")]
      ⟨100, 0, 100, 7, ⟨4, 10⟩, ⟨4, 100⟩, 2⟩ (by rfl)).1,
    (c7_susceptible_adjustment [("-s"), ("100"), ("-i"), ("7")]
      ⟨100, 0, 100, 7, ⟨4, 10⟩, ⟨4, 100⟩, 2⟩ (by rfl)).2.1 (by decide)⟩

/-- C3: for every run starting from non-negative initial compartment values
and non-negative rates, in each of the three variants (SIR, SQEIR, zombie),
every compartment's committed value is non-negative at the end of every
round; whenever a clamped update rule's raw computed next value is negative
the committed value is exactly 0; and the unclamped `Recovered()` rules
(SIR and SQEIR), which commit without any clamp branch, have raw values that
are never negative on reachable states, so their committed values (equal to
the raw values) are non-negative too. -/
theorem c3_nonneg_clamp (p : SIRParams) (s : SIRState) (hp : p.Nonneg)
    (hs : s.Nonneg) (q : SQEIRParams) (t : SQEIRState) (hq : q.Nonneg)
    (ht : t.Nonneg) (z : ZombieParams) (u : ZombieState) (hu : u.Nonneg) :
    ∀ n : ℕ,
      (sirIter p n s).Nonneg ∧
      (sirRawSusceptible p (sirIter p n s) < 0 →
        (sirStep p (sirIter p n s)).susceptible = 0) ∧
      (sirRawInfected p (sirIter p n s) < 0 →
        (sirStep p (sirIter p n s)).infected = 0) ∧
      0 ≤ sirRawRecovered p (sirIter p n s) ∧
      (sirStep p (sirIter p n s)).recovered =
        sirRawRecovered p (sirIter p n s) ∧
      (sqeirIter q n t).Nonneg ∧
      (sqeirRawSusceptible q (sqeirIter q n t) < 0 →
        (sqeirStep q (sqeirIter q n t)).susceptible = 0) ∧
      (sqeirRawQuarantined q (sqeirIter q n t) < 0 →
        (sqeirStep q (sqeirIter q n t)).quarantined = 0) ∧
      (sqeirRawExposed q (sqeirIter q n t) < 0 →
        (sqeirStep q (sqeirIter q n t)).exposed = 0) ∧
      (sqeirRawInfected q (sqeirIter q n t) < 0 →
        (sqeirStep q (sqeirIter q n t)).infected = 0) ∧
      0 ≤ sqeirRawRecovered q (sqeirIter q n t) ∧
      (sqeirStep q (sqeirIter q n t)).recovered =
        sqeirRawRecovered q (sqeirIter q n t) ∧
      (zombieIter z n u).Nonneg ∧
      (zombieRawSusceptible z (zombieIter z n u) < 0 →
        (zombieStep z (zombieIter z n u)).susceptible = 0) ∧
      (zombieRawImmune z (zombieIter z n u) < 0 →
        (zombieStep z (zombieIter z n u)).immune = 0) ∧
      (zombieRawInfected z (zombieIter z n u) < 0 →
        (zombieStep z (zombieIter z n u)).infected = 0) ∧
      (zombieRawZombies z (zombieIter z n u) < 0 →
        (zombieStep z (zombieIter z n u)).zombies = 0) ∧
      (zombieRawDead z (zombieIter z n u) < 0 →
        (zombieStep z (zombieIter z n u)).dead = 0) := by
  intro n
  have hinv := sirIter_nonneg p s hp hs n
  have hinvq := sqeirIter_nonneg q t hq ht n
  refine ⟨hinv, fun h => clampNonneg_of_neg _ h, fun h => clampNonneg_of_neg _ h,
    ?_, rfl, hinvq, fun h => clampNonneg_of_neg _ h, fun h => clampNonneg_of_neg _ h,
    fun h => clampNonneg_of_neg _ h, fun h => clampNonneg_of_neg _ h, ?_, rfl,
    zombieIter_nonneg z u hu n, fun h => clampNonneg_of_neg _ h,
    fun h => clampNonneg_of_neg _ h, fun h => clampNonneg_of_neg _ h,
    fun h => clampNonneg_of_neg _ h, fun h => clampNonneg_of_neg _ h⟩
  · exact add_nonneg hinv.2.2 (rateRound_nonneg _ _ hp.2 hinv.2.1)
  · exact add_nonneg hinvq.2.2.2.2 (rateRound_nonneg _ _ hq.2 hinvq.2.2.2.1)

/-- C3 witness: the default configurations of all three variants, round 1. -/
theorem c3_nonneg_clamp_witness :
    (sirIter sirDefaults 1 sirInit).Nonneg ∧
    0 ≤ sirRawRecovered sirDefaults (sirIter sirDefaults 1 sirInit) ∧
    (sqeirIter sqeirDefaults 1 sqeirInit).Nonneg ∧
    0 ≤ sqeirRawRecovered sqeirDefaults (sqeirIter sqeirDefaults 1 sqeirInit) ∧
    (zombieIter zombieDefaults 1 zombieInit).Nonneg := by
  have h := c3_nonneg_clamp sirDefaults sirInit ⟨by decide, by decide⟩
    ⟨by decide, by decide, by decide⟩ sqeirDefaults sqeirInit
    ⟨by decide, by decide⟩ ⟨by decide, by decide, by decide, by decide, by decide⟩
    zombieDefaults zombieInit
    ⟨by decide, by decide, by decide, by decide, by decide⟩ 1
  exact ⟨h.1, h.2.2.2.1, h.2.2.2.2.2.1, h.2.2.2.2.2.2.2.2.2.2.1,
    h.2.2.2.2.2.2.2.2.2.2.2.2.1⟩

end Epidemiology
